import Mathlib

/-!
Verification development for the decomposition-and-dispatch orchestration core
(`src/scheduler/best_latest_4.py` and `src/mcp/memory.py`).

The Python code is shallowly embedded: dictionaries become insertion-ordered
association lists (matching CPython dict semantics), exceptions become
`Except`/`Option` results, and the external collaborators (the text-generation
oracle, the remote agent endpoints, the PDF text extractor and OCR) are
modelled as outcome functions supplied in an `OracleConfig` record, since
their internals live outside the orchestration core.
-/

set_option linter.unusedVariables false

namespace AgentV8

/-- Exception message carried by a raised Python exception. -/
abbrev Err := String

/-- Equality of `Except` values is decidable componentwise. -/
instance {ε α : Type} [DecidableEq ε] [DecidableEq α] :
    DecidableEq (Except ε α) := fun a b =>
  match a, b with
  | .ok x, .ok y =>
    if h : x = y then .isTrue (by rw [h]) else .isFalse (by simp [h])
  | .error x, .error y =>
    if h : x = y then .isTrue (by rw [h]) else .isFalse (by simp [h])
  | .ok _, .error _ => .isFalse (by simp)
  | .error _, .ok _ => .isFalse (by simp)

/- ---------------- Python-style string helpers ----------------
All helpers are structurally recursive over `List Char` so that concrete
evaluations reduce inside the kernel. -/

/-- Split a character list at every occurrence of the separator character. -/
def charSplit (sep : Char) : List Char → List (List Char)
  | [] => [[]]
  | c :: rest =>
    match charSplit sep rest with
    | [] => [[]]
    | grp :: grps => if c = sep then [] :: grp :: grps else (c :: grp) :: grps

/-- Embeds `s.split(sep)` for a one-character separator (Python `str.split`). -/
def pySplit (sep : Char) (s : String) : List String :=
  (charSplit sep s.toList).map String.mk

/-- Python `str.splitlines` (newline-separated; a trailing newline produces
no trailing empty line, and the empty string has no lines). -/
def splitlines (s : String) : List String :=
  match pySplit '\n' s with
  | [] => []
  | parts => if parts.getLast? = some "" then parts.dropLast else parts

/-- Python `str.strip()`: remove leading and trailing whitespace. -/
def pyStrip (s : String) : String :=
  String.mk (((s.toList.dropWhile Char.isWhitespace).reverse.dropWhile
    Char.isWhitespace).reverse)

/-- Python `str.lower()`. -/
def pyLower (s : String) : String :=
  String.mk (s.toList.map Char.toLower)

/-- Python `str.startswith(p)`. -/
def pyStartswith (p s : String) : Bool :=
  s.toList.take p.toList.length = p.toList

/-- Python `s.replace(" ", "")` (drop every space character). -/
def dropSpaces (s : String) : String :=
  String.mk (s.toList.filter (fun c => ¬ c = ' '))

/-- The digit characters of `s`, in order (Python `filter(str.isdigit, s)`). -/
def digitsOf (s : String) : String :=
  String.mk (s.toList.filter Char.isDigit)

/-- The alphabetic characters of `s`, in order
(Python `filter(str.isalpha, s)`; note this keeps every alphabetic character
and drops everything else, including underscores). -/
def alphaOf (s : String) : String :=
  String.mk (s.toList.filter Char.isAlpha)

/-- Numeric value of a list of digit characters (most significant first). -/
def digitsToNat (cs : List Char) : Nat :=
  cs.foldl (fun n c => 10 * n + (c.toNat - 48)) 0

/-- Python `int(s)` restricted to the digit-only strings produced by
`digitsOf`: raises (returns `none`) exactly on the empty string. -/
def pyIntOfDigits (s : String) : Option Nat :=
  if s.toList.isEmpty then none else some (digitsToNat s.toList)

/-- Decimal rendering of a natural number (for f-string interpolation). -/
def natToString (n : Nat) : String := Nat.repr n

/-- Python `", ".join`-style interpolation helper. -/
def joinWith (sep : String) (parts : List String) : String :=
  String.intercalate sep parts

/- ---------------- Association lists (CPython dict semantics) ---------------- -/

/-- Dictionary lookup: first (unique) binding of `key`. -/
def assocLookup {β : Type} : List (String × β) → String → Option β
  | [], _ => none
  | (k, v) :: rest, key => if k = key then some v else assocLookup rest key

/-- Embeds `d[key] = v`: replace in place when present, append when absent
(CPython dicts preserve insertion order on overwrite). -/
def assocSet {β : Type} : List (String × β) → String → β → List (String × β)
  | [], key, v => [(key, v)]
  | (k, w) :: rest, key, v =>
    if k = key then (k, v) :: rest else (k, w) :: assocSet rest key v

/-- Embeds `old.update(new)`: fold every binding of `new` into `old` (Python
`dict.update`, one level deep). -/
def dictUpdate {β : Type} (old new : List (String × β)) : List (String × β) :=
  new.foldl (fun acc kv => assocSet acc kv.1 kv.2) old

/-- Embeds `plan[key] += new` for a plan that already carries `key`
(a no-op on plans lacking the key, which the call sites never produce). -/
def assocAppend : List (String × List String) → String → List String →
    List (String × List String)
  | [], _, _ => []
  | (k, l) :: rest, key, new =>
    if k = key then (k, l ++ new) :: rest
    else (k, l) :: assocAppend rest key new

/- ---------------- Agent Registry ---------------- -/

/-- Embeds `REGISTRY`: the static agent table of `best_latest_4.py`. -/
def REGISTRY : List (String × String) :=
  [("llama2_agent", "http://136.59.129.136:34517/infer"),
   ("llama2_agent_2", "http://142.214.185.187:30934/infer")]

/-- The registry's agent names, in table order (`list(REGISTRY)`). -/
def registryKeys : List String := REGISTRY.map Prod.fst

/- ---------------- Plan Parser (`LLMScheduler._parse_page_plan`) ---------------- -/

/-- Embeds `ln.split(":", 1)` guarded by `":" in ln`: `none` when the line has no
colon, otherwise the text before the first colon and the remainder. -/
def splitFirstColon (ln : String) : Option (String × String) :=
  match pySplit ':' ln with
  | [] => none
  | [_] => none
  | x :: rest => some (x, String.intercalate ":" rest)

/-- Expansion of one comma-separated token: a bare identifier stands for
itself; a token containing `-` is split into `start-end`, the digit runs of
both sides are parsed as the numeric bounds, and the alphabetic characters of
`start` (or `"page_"` when there are none) are prepended to every number of
the inclusive range.  `none` models the `ValueError` raised on a malformed
token. -/
def expandToken (tok : String) : Option (List String) :=
  if tok.toList.contains '-' then
    match pySplit '-' tok with
    | [s, e] =>
      match pyIntOfDigits (digitsOf s), pyIntOfDigits (digitsOf e) with
      | some sIdx, some eIdx =>
        let pre := if (alphaOf s).toList.isEmpty then "page_" else alphaOf s
        some ((List.range' sIdx (eIdx + 1 - sIdx)).map
          (fun i => pre ++ natToString i))
      | _, _ => none
    | _ => none
  else some [tok]

/-- Process one plan line: lines without `:` are skipped, the agent name is
the trimmed text before the first `:` and must be a registry member, the
remainder loses its spaces and is split on commas, and each non-empty token
is expanded into the agent's list. -/
def parsePlanLine (pl : List (String × List String)) (ln : String) :
    Option (List (String × List String)) :=
  match splitFirstColon ln with
  | none => some pl
  | some (ag0, ids0) =>
    let ag := pyStrip ag0
    if ag ∈ registryKeys then
      (pySplit ',' (dropSpaces ids0)).foldlM
        (fun acc tok =>
          if tok = "" then some acc
          else (expandToken tok).map (fun new => assocAppend acc ag new))
        pl
    else some pl

/-- The plan accumulator is seeded with every registry agent mapped to an
empty list (`{k: [] for k in REGISTRY}`). -/
def emptyPlan : List (String × List String) :=
  registryKeys.map (fun k => (k, ([] : List String)))

/-- Embeds `LLMScheduler._parse_page_plan`: fold the lines into the seeded plan and
drop the agents whose lists stayed empty.  `none` models a propagated
`ValueError` from a malformed range token. -/
def parsePagePlan (text : String) : Option (List (String × List String)) :=
  ((splitlines text).foldlM parsePlanLine emptyPlan).map
    (fun pl => pl.filter (fun kv => ¬ kv.2.isEmpty))

end AgentV8


namespace AgentV8

/- ---------------- Memory Store (`src/mcp/memory.py`) ---------------- -/

/-- A value stored in a context's memory dictionary: an agent's per-unit
result table, or the plain `"summary"` string (Python is untyped; these are
the two shapes the scheduler ever stores). -/
inductive MemVal : Type
  | table (t : List (String × String))
  | str (s : String)
deriving DecidableEq, Repr

/-- Embeds `MemoryStore`: `self.store`, a dict from context id to that context's
memory dict. -/
structure MemoryStore : Type where
  store : List (String × List (String × MemVal))
deriving DecidableEq, Repr

/-- A freshly constructed `MemoryStore()`. -/
def MemoryStore.empty : MemoryStore := ⟨[]⟩

/-- Embeds `MemoryStore.get`: the context's dict, or `{}` for an unknown id. -/
def MemoryStore.get (m : MemoryStore) (contextId : String) :
    List (String × MemVal) :=
  (assocLookup m.store contextId).getD []

/-- Embeds `MemoryStore.update`: create the context's dict when absent, then merge
`newData` into it one level deep via `dict.update`. -/
def MemoryStore.update (m : MemoryStore) (contextId : String)
    (newData : List (String × MemVal)) : MemoryStore :=
  ⟨assocSet m.store contextId (dictUpdate (m.get contextId) newData)⟩

/- ---------------- Scheduler state, trace, progress events ---------------- -/

/-- One record of `self.trace`. -/
structure TraceRec : Type where
  agent : String
  subtask : String
  output : String
deriving DecidableEq, Repr

/-- The mutable state of one `LLMScheduler` instance. -/
structure SchedState : Type where
  memory : MemoryStore
  trace : List TraceRec
deriving DecidableEq, Repr

/-- Embeds `LLMScheduler.__init__`: fresh memory, empty trace. -/
def initState : SchedState := ⟨MemoryStore.empty, []⟩

/-- Progress events pushed through the progress callback, in push order. -/
inductive Event : Type
  | subtasksListed (subs : List String)
  | assigned (agent : String) (subtask : String) (output : String)
  | done (markdown : String)
deriving DecidableEq, Repr

/-- The dictionary returned by a completed `dispatch` call. -/
structure DispatchResult : Type where
  markdown : String
  trace : List TraceRec
deriving DecidableEq, Repr

/-- Outcome of running (part of) a dispatch: the scheduler state after the
run, the progress events pushed (in order), and either the returned value or
the propagated exception. -/
abbrev RunOut := SchedState × List Event × Except Err DispatchResult

/- ---------------- External collaborators ---------------- -/

/-- Outcome of one `requests.post` agent call: a raised exception (network
error, timeout, or `resp.json()` failure), a JSON reply without a `"result"`
key, or a JSON reply carrying a result string. -/
inductive AgentCallOutcome : Type
  | raised (reason : String)
  | noResult
  | result (text : String)
deriving DecidableEq, Repr

/-- A JSON value appearing in the subtask-planning oracle's object reply. -/
inductive JsonVal : Type
  | arr (items : List String)
  | nonList
deriving DecidableEq, Repr

/-- Outcome of `json.loads` on the subtask-planning oracle's reply: not JSON
at all, JSON but not an object, or an object given as ordered key/value
pairs. -/
inductive JsonPlanOutcome : Type
  | parseFail
  | nonObject
  | obj (kvs : List (String × JsonVal))
deriving DecidableEq, Repr

/-- Behaviour of the external collaborators during one run: the outcome of
each oracle round trip, of each agent endpoint call, and of the PDF
text-extraction / OCR collaborators.  A `.error` marks a raised exception in
the collaborator call itself. -/
structure OracleConfig : Type where
  classifyResp : Except Err String
  planPagesResp : Except Err String
  subtasksResp : Except Err JsonPlanOutcome
  directResp : Except Err String
  summaryResp : String → Except Err String
  agentResp : String → String → AgentCallOutcome
  extractText : List Nat → List String
  ocrAvailable : Bool
  ocrText : List Nat → Nat → String

/- ---------------- Unit Segmenter (`LLMScheduler._pdf_pages`) ---------------- -/

/-- Embeds `_pdf_pages`: one `(page_<n>, stripped text)` pair per page, OCR-ing a
page whose extracted text is blank when OCR is available. -/
def pdfPages (cfg : OracleConfig) (data : List Nat) : List (String × String) :=
  (cfg.extractText data).enum.map (fun it =>
    let idx := it.1 + 1
    let txt :=
      if pyStrip it.2 = "" ∧ cfg.ocrAvailable then cfg.ocrText data idx else it.2
    ("page_" ++ natToString idx, pyStrip txt))

/- ---------------- Oracle-facing steps ---------------- -/

/-- Embeds `_need_split`: ask the classification oracle, answer `yes` iff the
stripped, lowered reply starts with `y`. -/
def needSplit (cfg : OracleConfig) : Except Err Bool :=
  cfg.classifyResp.map (fun s => pyStartswith "y" (pyLower (pyStrip s)))

/-- Embeds `_plan_pages`: one oracle round trip, then the Plan Parser; an oracle
failure or a parser `ValueError` propagates. -/
def planPages (cfg : OracleConfig) : Except Err (List (String × List String)) :=
  match cfg.planPagesResp with
  | .error e => .error e
  | .ok text =>
    match parsePagePlan text with
    | none => .error "ValueError"
    | some pl => .ok pl

/-- Embeds `_plan_subtasks_json`: one oracle round trip; `json.loads` failure yields
`{}`, a non-object reply raises, and an object keeps the keys that are
registry members with list values. -/
def planSubtasksJson (cfg : OracleConfig) :
    Except Err (List (String × List String)) :=
  match cfg.subtasksResp with
  | .error e => .error e
  | .ok .parseFail => .ok []
  | .ok .nonObject => .error "AttributeError"
  | .ok (.obj kvs) =>
    .ok (kvs.filterMap (fun kv =>
      match kv.2 with
      | .arr l => if kv.1 ∈ registryKeys then some (kv.1, l) else none
      | .nonList => none))

/-- Embeds `_answer_direct`: one oracle round trip; on success push one `done`
event and return the markdown with the instance trace unchanged. -/
def answerDirect (cfg : OracleConfig) (st : SchedState) : RunOut :=
  match cfg.directResp with
  | .error e => (st, [], .error e)
  | .ok s =>
    let md := pyStrip s
    (st, [.done md], .ok ⟨md, st.trace⟩)

/- ---------------- Fallback Allocator ---------------- -/

/-- The round-robin loop of `dispatch`'s fallback:
`plan[list(REGISTRY)[idx % len(REGISTRY)]].append(pid)` for each page id,
`idx` counting from `start`. -/
def fallbackLoop (pl : List (String × List String)) :
    Nat → List String → List (String × List String)
  | _, [] => pl
  | i, pid :: rest =>
    fallbackLoop
      (assocAppend pl (registryKeys.getD (i % registryKeys.length) "") [pid])
      (i + 1) rest

/-- The Fallback Allocator: seed every registry agent with an empty list and
round-robin the page ids over the registry, starting at index 0. -/
def fallbackAllocator (pageIds : List String) : List (String × List String) :=
  fallbackLoop emptyPlan 0 pageIds

/- ---------------- Dispatch Executor ---------------- -/

/-- The error-marker string recorded for a failed agent call
(`f"[❌ 调用失败] {e}"`). -/
def errMarker (reason : String) : String := "[❌ 调用失败] " ++ reason

/-- The result text extracted from one agent call:
`resp.json().get("result", "")` on success, the error marker on a raised
exception. -/
def resTextOf : AgentCallOutcome → String
  | .raised r => errMarker r
  | .noResult => ""
  | .result s => s

/-- Embeds `self.memory.get(context_id).get(ag, {}) or {}` followed by item
assignment: an absent or empty value gives `{}`; a non-empty string value
(never produced at an agent key) would raise `TypeError` at the assignment. -/
def agMemOf (m : MemoryStore) (contextId ag : String) :
    Except Err (List (String × String)) :=
  match assocLookup (m.get contextId) ag with
  | none => .ok []
  | some (.table t) => .ok t
  | some (.str s) => if s = "" then .ok [] else .error "TypeError"

/-- The body of the dispatch loop for one `(agent, key)` pair, after the
`assign` event has been pushed: call the agent, record the result text under
`Process <key>` in the agent's memory table, and append one trace record.
`some e` marks a propagated exception (the `TypeError` case). -/
def runPair (cfg : OracleConfig) (contextId : String) (st : SchedState)
    (ag key : String) : SchedState × Option Err :=
  let subName := "Process " ++ key
  let resText := resTextOf (cfg.agentResp ag key)
  match agMemOf st.memory contextId ag with
  | .error e => (st, some e)
  | .ok agMem =>
    let agMem' := assocSet agMem subName resText
    (⟨st.memory.update contextId [(ag, .table agMem')],
      st.trace ++ [⟨ag, subName, resText⟩]⟩, none)

/-- The full dispatch loop over the flattened `(agent, key)` pairs: push the
`assign` event, run the pair, and continue with the remaining pairs; a
propagated exception stops the loop. -/
def runPairs (cfg : OracleConfig) (contextId : String) (st : SchedState) :
    List (String × String) → SchedState × List Event × Option Err
  | [] => (st, [], none)
  | (ag, key) :: rest =>
    let ev := Event.assigned ag ("Process " ++ key) "Processing"
    match runPair cfg contextId st ag key with
    | (st', some e) => (st', [ev], some e)
    | (st', none) =>
      let out := runPairs cfg contextId st' rest
      (out.1, ev :: out.2.1, out.2.2)

/-- The `(agent, key)` pairs of a plan in loop order
(`for ag, keys in plan.items(): for key in keys`). -/
def pairsOf (pl : List (String × List String)) : List (String × String) :=
  pl.flatMap (fun kv => kv.2.map (fun k => (kv.1, k)))

/- ---------------- Summarization ---------------- -/

/-- Embeds `"\n".join(mem.values())`; joining a string iterates its characters, as
in Python. -/
def joinedValues : MemVal → String
  | .table t => String.intercalate "\n" (t.map Prod.snd)
  | .str s => String.intercalate "\n" (s.toList.map Char.toString)

/-- The `collected` text sent to the synthesis oracle: one block per
registry-member key of the context's memory, in memory order. -/
def collectedText (m : MemoryStore) (contextId : String) : String :=
  String.intercalate "\n\n"
    (((m.get contextId).filter (fun kv => kv.1 ∈ registryKeys)).map
      (fun kv => "【" ++ kv.1 ++ "】\n" ++ joinedValues kv.2))

/-- The synthesis prompt sent to the oracle. -/
def summaryPrompt (m : MemoryStore) (contextId : String) : String :=
  "请综合以下各智能体输出，进行总结。并用 Markdown 返回汇总后结果：\n"
    ++ collectedText m contextId

/-- The summarization step of `dispatch`: build the synthesis prompt, call
the oracle (a failure propagates), store the stripped reply under
`"summary"`, append the scheduler's summary trace record, push `done`, and
return the markdown with the full trace. -/
def summarize (cfg : OracleConfig) (contextId : String) (st : SchedState) :
    RunOut :=
  match cfg.summaryResp (summaryPrompt st.memory contextId) with
  | .error e => (st, [], .error e)
  | .ok s =>
    let md := pyStrip s
    let st' : SchedState :=
      ⟨st.memory.update contextId [("summary", .str md)],
       st.trace ++ [⟨"scheduler", "自动总结", md⟩]⟩
    (st', [.done md], .ok ⟨md, st'.trace⟩)

/- ---------------- Orchestrator (`LLMScheduler.dispatch`) ---------------- -/

/-- The final plan of a document run: the parsed oracle plan, or the
Fallback Allocator's round-robin plan when parsing yields an empty mapping. -/
def pdfFinalPlan (cfg : OracleConfig) (pageIds : List String) :
    Except Err (List (String × List String)) :=
  (planPages cfg).map (fun pl => if pl.isEmpty then fallbackAllocator pageIds else pl)

/-- The common tail of both `dispatch` branches (the source shares these
lines): run the dispatch loop over the plan's pairs and summarize, with the
already-pushed `subtasks` event prepended to the emitted events. -/
def runPlanAndSummarize (cfg : OracleConfig) (contextId : String)
    (evSub : Event) (plan : List (String × List String)) (st : SchedState) :
    RunOut :=
  let out := runPairs cfg contextId st (pairsOf plan)
  match out.2.2 with
  | some e => (out.1, evSub :: out.2.1, .error e)
  | none =>
    let fin := summarize cfg contextId out.1
    (fin.1, evSub :: out.2.1 ++ fin.2.1, fin.2.2)

/-- The document branch of `dispatch`: segment the pages, push the
`subtasks` event, plan (falling back to round-robin), run the dispatch loop,
and summarize. -/
def pdfRun (cfg : OracleConfig) (contextId task : String) (data : List Nat)
    (st : SchedState) : RunOut :=
  let pages := pdfPages cfg data
  let pageIds := pages.map Prod.fst
  let evSub := Event.subtasksListed (pageIds.map (fun pid => "Process " ++ pid))
  match pdfFinalPlan cfg pageIds with
  | .error e => (st, [evSub], .error e)
  | .ok plan => runPlanAndSummarize cfg contextId evSub plan st

/-- The flat-text branch of `dispatch`: classify; answer directly when no
split is needed or the subtask plan is empty; otherwise push the `subtasks`
event, run the dispatch loop, and summarize. -/
def textRun (cfg : OracleConfig) (contextId task : String) (st : SchedState) :
    RunOut :=
  match needSplit cfg with
  | .error e => (st, [], .error e)
  | .ok false => answerDirect cfg st
  | .ok true =>
    match planSubtasksJson cfg with
    | .error e => (st, [], .error e)
    | .ok plan =>
      if plan.isEmpty then answerDirect cfg st
      else
        let allSubs := plan.flatMap Prod.snd
        let evSub := Event.subtasksListed (allSubs.map (fun s => "Process " ++ s))
        runPlanAndSummarize cfg contextId evSub plan st

/-- Truthiness of an optional bytes value (`None` and `b""` are falsy). -/
def truthyBytes : Option (List Nat) → Bool
  | none => false
  | some b => ¬ b.isEmpty

/-- Python `pdf_bytes or file_bytes`. -/
def pyOr (a b : Option (List Nat)) : Option (List Nat) :=
  if truthyBytes a then a else b

/-- Embeds `LLMScheduler.dispatch`: take the document branch when
`pdf_bytes or file_bytes` is truthy, the flat-text branch otherwise. -/
def dispatch (cfg : OracleConfig) (contextId task : String)
    (pdfBytes fileBytes : Option (List Nat)) (st : SchedState) : RunOut :=
  match pyOr pdfBytes fileBytes with
  | some data =>
    if data.isEmpty then textRun cfg contextId task st
    else pdfRun cfg contextId task data st
  | none => textRun cfg contextId task st

end AgentV8

namespace AgentV8

/- ---------------- Association-list lemmas ---------------- -/

theorem assocLookup_assocSet_self {β : Type} (l : List (String × β))
    (k : String) (v : β) : assocLookup (assocSet l k v) k = some v := by
  induction l with
  | nil => simp [assocSet, assocLookup]
  | cons hd tl ih =>
    obtain ⟨k0, w⟩ := hd
    by_cases h : k0 = k
    · simp [assocSet, assocLookup, h]
    · simp [assocSet, assocLookup, h, ih]

theorem assocLookup_assocSet_ne {β : Type} (l : List (String × β))
    (k' k : String) (v : β) (h : ¬ k' = k) :
    assocLookup (assocSet l k' v) k = assocLookup l k := by
  induction l with
  | nil => simp [assocSet, assocLookup, h]
  | cons hd tl ih =>
    obtain ⟨k0, w⟩ := hd
    by_cases h0 : k0 = k'
    · subst h0
      simp [assocSet, assocLookup, h]
    · simp [assocSet, assocLookup, h0, ih]

theorem assocSet_of_lookup_eq {β : Type} (l : List (String × β))
    (k : String) (v : β) (h : assocLookup l k = some v) :
    assocSet l k v = l := by
  induction l with
  | nil => simp [assocLookup] at h
  | cons hd tl ih =>
    obtain ⟨k0, w⟩ := hd
    by_cases h0 : k0 = k
    · subst h0
      simp [assocLookup] at h
      simp [assocSet, h]
    · simp [assocLookup, h0] at h
      simp [assocSet, h0, ih h]

theorem dictUpdate_cons {β : Type} (old : List (String × β)) (k : String)
    (v : β) (rest : List (String × β)) :
    dictUpdate old ((k, v) :: rest) = dictUpdate (assocSet old k v) rest := rfl

theorem assocLookup_dictUpdate_not_mem {β : Type} (new old : List (String × β))
    (k : String) (h : k ∉ new.map Prod.fst) :
    assocLookup (dictUpdate old new) k = assocLookup old k := by
  induction new generalizing old with
  | nil => rfl
  | cons hd tl ih =>
    obtain ⟨k0, v0⟩ := hd
    simp only [List.map_cons, List.mem_cons] at h
    push_neg at h
    rw [dictUpdate_cons, ih _ h.2,
      assocLookup_assocSet_ne _ _ _ _ (fun he => h.1 he.symm)]

theorem assocLookup_dictUpdate_mem {β : Type} (new old : List (String × β))
    (k : String) (v : β) (hnd : (new.map Prod.fst).Nodup)
    (hmem : (k, v) ∈ new) :
    assocLookup (dictUpdate old new) k = some v := by
  induction new generalizing old with
  | nil => simp at hmem
  | cons hd tl ih =>
    obtain ⟨k0, v0⟩ := hd
    simp only [List.map_cons, List.nodup_cons] at hnd
    rcases List.mem_cons.mp hmem with heq | htl
    · obtain ⟨hk, hv⟩ := Prod.mk.injEq .. ▸ heq
      subst hk
      subst hv
      rw [dictUpdate_cons,
        assocLookup_dictUpdate_not_mem _ _ _ hnd.1,
        assocLookup_assocSet_self]
    · exact dictUpdate_cons .. ▸ ih _ hnd.2 htl

theorem dictUpdate_idem {β : Type} (new old : List (String × β))
    (hnd : (new.map Prod.fst).Nodup) :
    dictUpdate (dictUpdate old new) new = dictUpdate old new := by
  induction new generalizing old with
  | nil => rfl
  | cons hd tl ih =>
    obtain ⟨k0, v0⟩ := hd
    simp only [List.map_cons, List.nodup_cons] at hnd
    rw [dictUpdate_cons, dictUpdate_cons]
    have hl : assocLookup (dictUpdate (assocSet old k0 v0) tl) k0 = some v0 := by
      rw [assocLookup_dictUpdate_not_mem _ _ _ hnd.1, assocLookup_assocSet_self]
    rw [assocSet_of_lookup_eq _ _ _ hl, ih _ hnd.2]

end AgentV8

namespace AgentV8

/- ---------------- Memory Store lemmas ---------------- -/

theorem memGet_update_self (m : MemoryStore) (contextId : String)
    (newData : List (String × MemVal)) :
    (m.update contextId newData).get contextId
      = dictUpdate (m.get contextId) newData := by
  unfold MemoryStore.update MemoryStore.get
  rw [assocLookup_assocSet_self]
  rfl

/-- Claim C8: the Memory Store returns an empty mapping for a never-updated context
id (and a fresh store for every id) without raising; `update` merges one
level deep, replacing each top-level key's value wholesale rather than
deep-merging it; and repeating the same update is idempotent, leaving the
store (and hence any subsequent `get`) unchanged.
-/
theorem C8_memory_store_contract :
    (∀ contextId, MemoryStore.empty.get contextId = []) ∧
    (∀ (m : MemoryStore) contextId,
      assocLookup m.store contextId = none → m.get contextId = []) ∧
    (∀ (m : MemoryStore) (contextId k : String) (v : MemVal)
      (newData : List (String × MemVal)),
      (newData.map Prod.fst).Nodup → (k, v) ∈ newData →
      assocLookup ((m.update contextId newData).get contextId) k = some v) ∧
    (∀ (m : MemoryStore) (contextId : String)
      (newData : List (String × MemVal)),
      (newData.map Prod.fst).Nodup →
      (m.update contextId newData).update contextId newData
        = m.update contextId newData) := by
  refine ⟨fun contextId => rfl, fun m contextId h => ?_, ?_, ?_⟩
  · unfold MemoryStore.get
    rw [h]
    rfl
  · intro m contextId k v newData hnd hmem
    rw [memGet_update_self]
    exact assocLookup_dictUpdate_mem _ _ _ _ hnd hmem
  · intro m contextId newData hnd
    show (⟨assocSet (m.update contextId newData).store contextId
        (dictUpdate ((m.update contextId newData).get contextId) newData)⟩ :
          MemoryStore)
      = m.update contextId newData
    rw [memGet_update_self, dictUpdate_idem _ _ hnd]
    have hst : assocLookup (m.update contextId newData).store contextId
        = some (dictUpdate (m.get contextId) newData) :=
      assocLookup_assocSet_self ..
    rw [assocSet_of_lookup_eq _ _ _ hst]

/-- Witness for C8: concrete Memory Store facts obtained by applying
`C8_memory_store_contract`: a fresh store yields `{}`, an update replaces
an agent's whole table (old sub-keys gone), and repeating an update changes
nothing.
-/
theorem C8_memory_store_contract_witness :
    MemoryStore.empty.get "ctx" = [] ∧
    assocLookup
      (((MemoryStore.empty.update "ctx" [("a", .table [("x", "1")])]).update
        "ctx" [("a", .table [("y", "2")])]).get "ctx") "a"
      = some (.table [("y", "2")]) ∧
    (MemoryStore.empty.update "ctx" [("a", .str "s")]).update "ctx"
        [("a", .str "s")]
      = MemoryStore.empty.update "ctx" [("a", .str "s")] :=
  ⟨C8_memory_store_contract.1 "ctx",
   C8_memory_store_contract.2.2.1
     (MemoryStore.empty.update "ctx" [("a", .table [("x", "1")])]) "ctx" "a"
     (.table [("y", "2")]) [("a", .table [("y", "2")])] (by decide)
     (by decide),
   C8_memory_store_contract.2.2.2 MemoryStore.empty "ctx"
     [("a", .str "s")] (by decide)⟩

end AgentV8

namespace AgentV8

/- ---------------- Plan Parser lemmas ---------------- -/

/-- A plan line the parser ignores: no colon, or a pre-colon name that is
not a registry member after trimming. -/
def lineIgnored (ln : String) : Bool :=
  match splitFirstColon ln with
  | none => true
  | some (ag0, _) => decide (pyStrip ag0 ∉ registryKeys)

theorem parsePlanLine_ignored (pl : List (String × List String))
    (ln : String) (h : lineIgnored ln = true) :
    parsePlanLine pl ln = some pl := by
  unfold lineIgnored at h
  unfold parsePlanLine
  cases hsp : splitFirstColon ln with
  | none => rfl
  | some p =>
    obtain ⟨ag0, ids0⟩ := p
    rw [hsp] at h
    simp only [decide_eq_true_eq] at h
    simp [h]

theorem foldlM_ignored_lines (lines : List String)
    (pl : List (String × List String))
    (h : ∀ ln ∈ lines, lineIgnored ln = true) :
    lines.foldlM parsePlanLine pl = some pl := by
  induction lines with
  | nil => rfl
  | cons hd tl ih =>
    have hhd : lineIgnored hd = true := h hd (List.mem_cons_self ..)
    have htl : ∀ ln ∈ tl, lineIgnored ln = true :=
      fun ln hln => h ln (List.mem_cons_of_mem _ hln)
    calc ((hd :: tl).foldlM parsePlanLine pl : Option _)
        = tl.foldlM parsePlanLine pl := by
          simp [List.foldlM_cons, parsePlanLine_ignored _ _ hhd]
      _ = some pl := ih htl

/-- Claim C7: for every plan text all of whose lines either lack a `:` separator or
name a non-registry agent before their first `:`, the Plan Parser returns
an empty mapping (lines without `:` are skipped, unknown-agent lines are
discarded whole, and agents left with empty lists are dropped), and the
empty text parses to the empty plan as well.
-/
theorem C7_unrecognized_plans_empty (text : String)
    (h : ∀ ln ∈ splitlines text, lineIgnored ln = true) :
    parsePagePlan text = some [] := by
  unfold parsePagePlan
  rw [foldlM_ignored_lines _ _ h]
  rfl

/-- Witness for C7: a text whose three lines are a colon-free line, a line for
an unknown agent, and another colon-free line parses to the empty plan; the
empty text does too.
-/
theorem C7_unrecognized_plans_empty_witness :
    parsePagePlan "hello world\nfoo_agent: page_1-page_3\nllama2agent page_2"
      = some [] ∧
    parsePagePlan "" = some [] :=
  ⟨C7_unrecognized_plans_empty _ (by decide),
   C7_unrecognized_plans_empty _ (by decide)⟩

/-- Claim C2: evaluation of the Plan Parser at the spec's own scenario line.  The
range token `page_2-page_4` expands to `page2, page3, page4`: the
`filter(str.isalpha, ...)` reused for the range's alphabetic part drops the
underscore of `page_2`, so the expansion does not produce the
`page_2, page_3, page_4` identifiers that the Unit Segmenter generates and
that the claim requires.
-/
theorem C2_range_expansion_eval :
    parsePagePlan "llama2_agent: page_2-page_4"
      = some [("llama2_agent", ["page2", "page3", "page4"])] ∧
    ¬ parsePagePlan "llama2_agent: page_2-page_4"
      = some [("llama2_agent", ["page_2", "page_3", "page_4"])] := by
  refine ⟨by decide, by decide⟩

end AgentV8

namespace AgentV8

/- ---------------- Fallback Allocator lemmas ---------------- -/

theorem assocLookup_assocAppend (pl : List (String × List String))
    (key k : String) (new : List String) :
    assocLookup (assocAppend pl key new) k
      = (assocLookup pl k).map (fun l => if key = k then l ++ new else l) := by
  induction pl with
  | nil => simp [assocAppend, assocLookup]
  | cons hd tl ih =>
    obtain ⟨k0, l0⟩ := hd
    by_cases hk : k0 = key
    · subst hk
      by_cases h0 : k0 = k
      · subst h0
        simp [assocAppend, assocLookup]
      · have hne : ¬ k0 = k := h0
        rw [assocAppend, if_pos rfl]
        rw [show assocLookup ((k0, l0 ++ new) :: tl) k
            = assocLookup tl k from by simp [assocLookup, hne]]
        rw [show assocLookup ((k0, l0) :: tl) k
            = assocLookup tl k from by simp [assocLookup, hne]]
        cases assocLookup tl k <;> simp [hne]
    · rw [assocAppend, if_neg hk]
      by_cases h0 : k0 = k
      · subst h0
        have hkk : ¬ key = k0 := fun h => hk h.symm
        simp [assocLookup, hkk]
      · simp [assocLookup, h0, ih]

/-- The round-robin assignment as the spec words it: agent `k` receives the
units whose 0-based position `i` (counted from `start`) satisfies
`registryKeys[i % K] = k`, in their original order. -/
def specRoundRobinPicks (k : String) : Nat → List String → List String
  | _, [] => []
  | i, pid :: rest =>
    (if registryKeys.getD (i % registryKeys.length) "" = k then [pid] else [])
      ++ specRoundRobinPicks k (i + 1) rest

theorem fallbackLoop_lookup (pageIds : List String) (i : Nat)
    (pl : List (String × List String)) (k : String) :
    assocLookup (fallbackLoop pl i pageIds) k
      = (assocLookup pl k).map (fun l => l ++ specRoundRobinPicks k i pageIds) := by
  induction pageIds generalizing i pl with
  | nil =>
    simp only [fallbackLoop, specRoundRobinPicks]
    cases assocLookup pl k <;> simp
  | cons pid rest ih =>
    rw [fallbackLoop, ih, assocLookup_assocAppend]
    cases assocLookup pl k with
    | none => rfl
    | some l =>
      simp only [Option.map_some']
      by_cases h : registryKeys.getD (i % registryKeys.length) "" = k
      · rw [specRoundRobinPicks, if_pos h, if_pos h, List.append_assoc]
      · rw [specRoundRobinPicks, if_neg h, if_neg h]
        simp

theorem assocLookup_emptyPlan (k : String) (h : k ∈ registryKeys) :
    assocLookup emptyPlan k = some [] := by
  have : k = "llama2_agent" ∨ k = "llama2_agent_2" := by
    simpa [registryKeys, REGISTRY] using h
  rcases this with h1 | h1 <;> subst h1 <;> decide

theorem specRoundRobinPicks_getD_mem (pageIds : List String) :
    ∀ (off i : Nat), i < pageIds.length →
      pageIds.getD i "" ∈ specRoundRobinPicks
        (registryKeys.getD ((off + i) % registryKeys.length) "") off pageIds := by
  induction pageIds with
  | nil => intro off i h; simp at h
  | cons pid rest ih =>
    intro off i h
    cases i with
    | zero =>
      simp only [specRoundRobinPicks, Nat.add_zero, List.getD_cons_zero]
      exact List.mem_append_left _ (by simp)
    | succ j =>
      have hj : j < rest.length := Nat.lt_of_succ_lt_succ h
      have := ih (off + 1) j hj
      simp only [specRoundRobinPicks, List.getD_cons_succ]
      refine List.mem_append_right _ ?_
      have harith : off + 1 + j = off + (j + 1) := by omega
      rw [← harith]
      exact this

theorem assocLookup_mem {β : Type} (l : List (String × β)) (k : String)
    (v : β) (h : assocLookup l k = some v) : (k, v) ∈ l := by
  induction l with
  | nil => simp [assocLookup] at h
  | cons hd tl ih =>
    obtain ⟨k0, w⟩ := hd
    by_cases h0 : k0 = k
    · subst h0
      simp [assocLookup] at h
      subst h
      exact List.mem_cons_self ..
    · simp only [assocLookup, if_neg h0] at h
      exact List.mem_cons_of_mem _ (ih h)

/-- Claim C3: the Fallback Allocator assigns the unit at 0-based position `i` to the
registry agent at position `i mod K`: each registry agent's list is exactly
the round-robin selection (`specRoundRobinPicks`, the spec-side wording of
the policy), so the unit at position `i` appears in the list of agent
`i mod K`; the plan is non-empty whenever the unit list is; and for five
pages over the two-member registry the plan is
`llama2_agent ↦ [page_1, page_3, page_5]`,
`llama2_agent_2 ↦ [page_2, page_4]`.  Determinism holds because
`fallbackAllocator` is a pure function of the unit list and the registry.
-/
theorem C3_fallback_round_robin :
    (∀ (pageIds : List String) (k : String), k ∈ registryKeys →
      assocLookup (fallbackAllocator pageIds) k
        = some (specRoundRobinPicks k 0 pageIds)) ∧
    (∀ (pageIds : List String) (i : Nat), i < pageIds.length →
      pageIds.getD i "" ∈ specRoundRobinPicks
        (registryKeys.getD (i % registryKeys.length) "") 0 pageIds) ∧
    (∀ pageIds : List String, pageIds ≠ [] →
      pairsOf (fallbackAllocator pageIds) ≠ []) ∧
    fallbackAllocator ["page_1", "page_2", "page_3", "page_4", "page_5"]
      = [("llama2_agent", ["page_1", "page_3", "page_5"]),
         ("llama2_agent_2", ["page_2", "page_4"])] := by
  have hchar : ∀ (pageIds : List String) (k : String), k ∈ registryKeys →
      assocLookup (fallbackAllocator pageIds) k
        = some (specRoundRobinPicks k 0 pageIds) := by
    intro pageIds k hk
    rw [fallbackAllocator, fallbackLoop_lookup, assocLookup_emptyPlan k hk]
    simp
  refine ⟨hchar, fun pageIds i h => ?_, fun pageIds hne => ?_, by decide⟩
  · simpa using specRoundRobinPicks_getD_mem pageIds 0 i h
  · cases pageIds with
    | nil => exact absurd rfl hne
    | cons p rest =>
      have hmem0 : p ∈ specRoundRobinPicks "llama2_agent" 0 (p :: rest) := by
        rw [specRoundRobinPicks]
        refine List.mem_append_left _ ?_
        rw [if_pos (by decide)]
        simp
      have hpl : ("llama2_agent",
          specRoundRobinPicks "llama2_agent" 0 (p :: rest))
          ∈ fallbackAllocator (p :: rest) :=
        assocLookup_mem _ _ _ (hchar (p :: rest) "llama2_agent" (by decide))
      have hpair : ("llama2_agent", p)
          ∈ pairsOf (fallbackAllocator (p :: rest)) := by
        unfold pairsOf
        exact List.mem_flatMap.mpr ⟨_, hpl, List.mem_map_of_mem _ hmem0⟩
      exact List.ne_nil_of_mem hpair

/-- Witness for C3: applying `C3_fallback_round_robin` to a concrete two-page
list puts `page_1` (position 0) with the first registry agent and leaves
`page_2` (position 1) in the second agent's round-robin selection.
-/
theorem C3_fallback_round_robin_witness :
    assocLookup (fallbackAllocator ["page_1", "page_2"]) "llama2_agent"
      = some (specRoundRobinPicks "llama2_agent" 0 ["page_1", "page_2"]) ∧
    (["page_1", "page_2"].getD 1 "") ∈ specRoundRobinPicks
      (registryKeys.getD (1 % registryKeys.length) "") 0
      ["page_1", "page_2"] :=
  ⟨C3_fallback_round_robin.1 ["page_1", "page_2"] "llama2_agent" (by decide),
   C3_fallback_round_robin.2.1 ["page_1", "page_2"] 1 (by decide)⟩

end AgentV8

namespace AgentV8

/- ---------------- Event and trace predicates ---------------- -/

/-- Is the event a `done` (run-completion) event? -/
def isDoneEv : Event → Bool
  | .done _ => true
  | _ => false

/-- Is the event an `assign` (unit-assigned) event? -/
def isAssignEv : Event → Bool
  | .assigned _ _ _ => true
  | _ => false

/-- Is the event a `subtasks` (subtasks-listed) event? -/
def isSubtasksEv : Event → Bool
  | .subtasksListed _ => true
  | _ => false

/-- Does the trace record carry an error-marker output? -/
def traceHasMarker (tr : TraceRec) : Bool :=
  pyStartswith "[❌ 调用失败]" tr.output

/- ---------------- Dispatch-loop lemmas ---------------- -/

theorem runPair_ok_of_agMem (cfg : OracleConfig) (contextId : String)
    (st : SchedState) (ag key : String)
    (agMem : List (String × String))
    (hmem : agMemOf st.memory contextId ag = .ok agMem) :
    runPair cfg contextId st ag key
      = (⟨st.memory.update contextId
            [(ag, .table (assocSet agMem ("Process " ++ key)
              (resTextOf (cfg.agentResp ag key))))],
          st.trace ++ [⟨ag, "Process " ++ key,
            resTextOf (cfg.agentResp ag key)⟩]⟩, none) := by
  unfold runPair
  rw [hmem]

theorem runPair_err_state (cfg : OracleConfig) (contextId : String)
    (st : SchedState) (ag key : String) (e : Err)
    (h : (runPair cfg contextId st ag key).2 = some e) :
    (runPair cfg contextId st ag key).1 = st := by
  unfold runPair at h ⊢
  cases hmem : agMemOf st.memory contextId ag with
  | error e0 => rfl
  | ok agMem =>
    rw [hmem] at h
    simp at h

theorem runPair_none_trace (cfg : OracleConfig) (contextId : String)
    (st : SchedState) (ag key : String)
    (h : (runPair cfg contextId st ag key).2 = none) :
    (runPair cfg contextId st ag key).1.trace
      = st.trace ++ [⟨ag, "Process " ++ key,
          resTextOf (cfg.agentResp ag key)⟩] := by
  unfold runPair at h ⊢
  cases hmem : agMemOf st.memory contextId ag with
  | error e0 =>
    rw [hmem] at h
    simp at h
  | ok agMem => rfl

/-- The dispatch loop only ever appends to the instance trace, whether or
not it finishes. -/
theorem runPairs_trace_grows (cfg : OracleConfig) (contextId : String)
    (pairs : List (String × String)) (st : SchedState) :
    ∃ t, (runPairs cfg contextId st pairs).1.trace = st.trace ++ t := by
  induction pairs generalizing st with
  | nil => exact ⟨[], by simp [runPairs]⟩
  | cons hd tl ih =>
    obtain ⟨ag, key⟩ := hd
    rw [runPairs]
    cases hrp : runPair cfg contextId st ag key with
    | mk st1 errOpt =>
      cases errOpt with
      | some e =>
        refine ⟨[], ?_⟩
        have hst : st1 = st := by
          have := runPair_err_state cfg contextId st ag key e (by rw [hrp])
          rw [hrp] at this
          exact this
        subst hst
        simp
      | none =>
        obtain ⟨t, ht⟩ := ih st1
        have h1 : st1.trace = st.trace ++ [⟨ag, "Process " ++ key,
            resTextOf (cfg.agentResp ag key)⟩] := by
          have := runPair_none_trace cfg contextId st ag key (by rw [hrp])
          rw [hrp] at this
          exact this
        refine ⟨⟨ag, "Process " ++ key,
          resTextOf (cfg.agentResp ag key)⟩ :: t, ?_⟩
        simp only []
        rw [ht, h1, List.append_assoc]
        rfl

/-- When the dispatch loop finishes without a propagated exception, it has
appended exactly one trace record per `(agent, unit)` pair. -/
theorem runPairs_ok_trace_length (cfg : OracleConfig) (contextId : String)
    (pairs : List (String × String)) (st : SchedState)
    (h : (runPairs cfg contextId st pairs).2.2 = none) :
    (runPairs cfg contextId st pairs).1.trace.length
      = st.trace.length + pairs.length := by
  induction pairs generalizing st with
  | nil => simp [runPairs]
  | cons hd tl ih =>
    obtain ⟨ag, key⟩ := hd
    rw [runPairs] at h ⊢
    cases hrp : runPair cfg contextId st ag key with
    | mk st1 errOpt =>
      rw [hrp] at h
      cases errOpt with
      | some e => simp at h
      | none =>
        simp only at h ⊢
        have h1 : st1.trace = st.trace ++ [⟨ag, "Process " ++ key,
            resTextOf (cfg.agentResp ag key)⟩] := by
          have := runPair_none_trace cfg contextId st ag key (by rw [hrp])
          rw [hrp] at this
          exact this
        have := ih st1 h
        rw [this, h1]
        simp
        omega

/-- Every event the dispatch loop emits is an `assign` event. -/
theorem runPairs_events_assign (cfg : OracleConfig) (contextId : String)
    (pairs : List (String × String)) (st : SchedState) :
    ∀ ev ∈ (runPairs cfg contextId st pairs).2.1, isAssignEv ev = true := by
  induction pairs generalizing st with
  | nil => simp [runPairs]
  | cons hd tl ih =>
    obtain ⟨ag, key⟩ := hd
    rw [runPairs]
    cases hrp : runPair cfg contextId st ag key with
    | mk st1 errOpt =>
      cases errOpt with
      | some e =>
        intro ev hev
        simp only [List.mem_singleton] at hev
        rw [hev]
        rfl
      | none =>
        intro ev hev
        simp only [List.mem_cons] at hev
        rcases hev with hev | hev
        · rw [hev]; rfl
        · exact ih st1 ev hev

end AgentV8

namespace AgentV8

/- ---------------- Summarization-step lemmas ---------------- -/

theorem summarize_error (cfg : OracleConfig) (contextId : String)
    (st : SchedState) (e : Err)
    (h : cfg.summaryResp (summaryPrompt st.memory contextId) = .error e) :
    summarize cfg contextId st = (st, [], .error e) := by
  unfold summarize
  rw [h]

theorem summarize_ok (cfg : OracleConfig) (contextId : String)
    (st : SchedState) (s : String)
    (h : cfg.summaryResp (summaryPrompt st.memory contextId) = .ok s) :
    summarize cfg contextId st
      = (⟨st.memory.update contextId [("summary", .str (pyStrip s))],
          st.trace ++ [⟨"scheduler", "自动总结", pyStrip s⟩]⟩,
         [.done (pyStrip s)],
         .ok ⟨pyStrip s,
           st.trace ++ [⟨"scheduler", "自动总结", pyStrip s⟩]⟩) := by
  unfold summarize
  rw [h]

/- ---------------- Loop-then-summarize lemmas ---------------- -/

/-- When the common loop-then-summarize tail returns a result, the loop
finished cleanly, the synthesis oracle answered, and the returned state,
events, and result have the canonical shapes. -/
theorem runPlanAndSummarize_ok (cfg : OracleConfig) (contextId : String)
    (evSub : Event) (plan : List (String × List String)) (st : SchedState)
    (st' : SchedState) (evs : List Event) (r : DispatchResult)
    (h : runPlanAndSummarize cfg contextId evSub plan st = (st', evs, .ok r)) :
    ∃ s,
      (runPairs cfg contextId st (pairsOf plan)).2.2 = none ∧
      cfg.summaryResp (summaryPrompt
        (runPairs cfg contextId st (pairsOf plan)).1.memory contextId)
        = .ok s ∧
      st' = ⟨(runPairs cfg contextId st (pairsOf plan)).1.memory.update
               contextId [("summary", .str (pyStrip s))],
             (runPairs cfg contextId st (pairsOf plan)).1.trace
               ++ [⟨"scheduler", "自动总结", pyStrip s⟩]⟩ ∧
      evs = evSub :: (runPairs cfg contextId st (pairsOf plan)).2.1
              ++ [.done (pyStrip s)] ∧
      r = ⟨pyStrip s,
           (runPairs cfg contextId st (pairsOf plan)).1.trace
             ++ [⟨"scheduler", "自动总结", pyStrip s⟩]⟩ := by
  simp only [runPlanAndSummarize] at h
  cases hout : (runPairs cfg contextId st (pairsOf plan)).2.2 with
  | some e =>
    simp only [hout] at h
    simp at h
  | none =>
    simp only [hout] at h
    cases hs : cfg.summaryResp (summaryPrompt
        (runPairs cfg contextId st (pairsOf plan)).1.memory contextId) with
    | error e =>
      rw [summarize_error cfg contextId _ e hs] at h
      simp at h
    | ok s =>
      rw [summarize_ok cfg contextId _ s hs] at h
      simp only [Prod.mk.injEq] at h
      obtain ⟨h1, h2, h3⟩ := h
      refine ⟨s, rfl, rfl, h1.symm, h2.symm, ?_⟩
      cases h3
      rfl

/-- The loop-then-summarize tail only appends to the instance trace. -/
theorem runPlanAndSummarize_trace_grows (cfg : OracleConfig)
    (contextId : String) (evSub : Event)
    (plan : List (String × List String)) (st : SchedState) :
    ∃ t, (runPlanAndSummarize cfg contextId evSub plan st).1.trace
      = st.trace ++ t := by
  obtain ⟨t0, ht0⟩ := runPairs_trace_grows cfg contextId (pairsOf plan) st
  simp only [runPlanAndSummarize]
  cases hout : (runPairs cfg contextId st (pairsOf plan)).2.2 with
  | some e =>
    simp only [hout]
    exact ⟨t0, ht0⟩
  | none =>
    simp only [hout]
    cases hs : cfg.summaryResp (summaryPrompt
        (runPairs cfg contextId st (pairsOf plan)).1.memory contextId) with
    | error e =>
      rw [summarize_error cfg contextId _ e hs]
      exact ⟨t0, ht0⟩
    | ok s =>
      rw [summarize_ok cfg contextId _ s hs]
      exact ⟨t0 ++ [⟨"scheduler", "自动总结", pyStrip s⟩],
        by simp [ht0]⟩

/-- When the loop-then-summarize tail returns a result, the returned trace
is the instance trace at return time. -/
theorem runPlanAndSummarize_result_trace (cfg : OracleConfig)
    (contextId : String) (evSub : Event)
    (plan : List (String × List String)) (st : SchedState)
    (st' : SchedState) (evs : List Event) (r : DispatchResult)
    (h : runPlanAndSummarize cfg contextId evSub plan st = (st', evs, .ok r)) :
    r.trace = st'.trace := by
  obtain ⟨s, _, _, hst, _, hr⟩ :=
    runPlanAndSummarize_ok cfg contextId evSub plan st st' evs r h
  rw [hr, hst]

end AgentV8

namespace AgentV8

/- ---------------- Branch lemmas for the orchestrator ---------------- -/

theorem answerDirect_props (cfg : OracleConfig) (st : SchedState) :
    (answerDirect cfg st).1 = st ∧
    (∀ r, (answerDirect cfg st).2.2 = .ok r → r.trace = st.trace) := by
  unfold answerDirect
  cases cfg.directResp with
  | error e => exact ⟨rfl, by intro r h; simp at h⟩
  | ok s =>
    refine ⟨rfl, ?_⟩
    intro r h
    simp only [Except.ok.injEq] at h
    rw [← h]

theorem runPlanAndSummarize_ok_trace (cfg : OracleConfig)
    (contextId : String) (evSub : Event)
    (plan : List (String × List String)) (st : SchedState)
    (r : DispatchResult)
    (hr : (runPlanAndSummarize cfg contextId evSub plan st).2.2 = .ok r) :
    r.trace = (runPlanAndSummarize cfg contextId evSub plan st).1.trace := by
  have h : runPlanAndSummarize cfg contextId evSub plan st
      = ((runPlanAndSummarize cfg contextId evSub plan st).1,
         (runPlanAndSummarize cfg contextId evSub plan st).2.1, .ok r) := by
    rw [← hr]
  exact runPlanAndSummarize_result_trace cfg contextId evSub plan st _ _ r h

theorem textRun_trace_props (cfg : OracleConfig) (contextId task : String)
    (st : SchedState) :
    (∃ t, (textRun cfg contextId task st).1.trace = st.trace ++ t) ∧
    (∀ r, (textRun cfg contextId task st).2.2 = .ok r →
      r.trace = (textRun cfg contextId task st).1.trace) := by
  simp only [textRun]
  cases h1 : needSplit cfg with
  | error e =>
    exact ⟨⟨[], by simp⟩, by intro r h; simp at h⟩
  | ok b =>
    cases b with
    | false =>
      obtain ⟨hs1, hs2⟩ := answerDirect_props cfg st
      exact ⟨⟨[], by rw [hs1]; simp⟩, fun r hr => by rw [hs2 r hr, hs1]⟩
    | true =>
      cases h2 : planSubtasksJson cfg with
      | error e =>
        exact ⟨⟨[], by simp⟩, by intro r h; simp at h⟩
      | ok plan =>
        by_cases hpl : plan.isEmpty
        · simp only [hpl, if_true]
          obtain ⟨hs1, hs2⟩ := answerDirect_props cfg st
          exact ⟨⟨[], by rw [hs1]; simp⟩, fun r hr => by rw [hs2 r hr, hs1]⟩
        · simp only [hpl, if_false]
          exact ⟨runPlanAndSummarize_trace_grows cfg contextId _ plan st,
            fun r hr => runPlanAndSummarize_ok_trace cfg contextId _ plan st
              r hr⟩

theorem pdfRun_trace_props (cfg : OracleConfig) (contextId task : String)
    (data : List Nat) (st : SchedState) :
    (∃ t, (pdfRun cfg contextId task data st).1.trace = st.trace ++ t) ∧
    (∀ r, (pdfRun cfg contextId task data st).2.2 = .ok r →
      r.trace = (pdfRun cfg contextId task data st).1.trace) := by
  simp only [pdfRun]
  cases hp : pdfFinalPlan cfg ((pdfPages cfg data).map Prod.fst) with
  | error e =>
    exact ⟨⟨[], by simp⟩, by intro r h; simp at h⟩
  | ok plan =>
    exact ⟨runPlanAndSummarize_trace_grows cfg contextId _ plan st,
      fun r hr => runPlanAndSummarize_ok_trace cfg contextId _ plan st r hr⟩

/-- Claim C10: the execution trace is scheduler-instance state that `dispatch` never
resets: every `dispatch` call (document, decomposed-text, direct-answer, or
aborted by a propagated exception) leaves the instance trace equal to the
prior trace plus an appended suffix, and a call that returns hands back
exactly that instance trace — so a later call's returned trace still
contains every record of earlier runs, and a direct-answer run returns an
empty trace only when the instance's trace was empty (never dispatched
before).
-/
theorem C10_trace_only_grows (cfg : OracleConfig) (contextId task : String)
    (pdfBytes fileBytes : Option (List Nat)) (st : SchedState) :
    (∃ t, (dispatch cfg contextId task pdfBytes fileBytes st).1.trace
        = st.trace ++ t) ∧
    (∀ r, (dispatch cfg contextId task pdfBytes fileBytes st).2.2 = .ok r →
      r.trace = (dispatch cfg contextId task pdfBytes fileBytes st).1.trace) := by
  unfold dispatch
  cases pyOr pdfBytes fileBytes with
  | none => exact textRun_trace_props cfg contextId task st
  | some data =>
    by_cases hd : data.isEmpty
    · simp only [hd, if_true]
      exact textRun_trace_props cfg contextId task st
    · simp only [hd, if_false]
      exact pdfRun_trace_props cfg contextId task data st

end AgentV8

namespace AgentV8

/- ---------------- Concrete collaborator configurations ---------------- -/

/-- A one-page document run whose only agent call raises `boom` and whose
synthesis oracle answers `SUM`. -/
def cfgFailingAgent : OracleConfig :=
  { classifyResp := .error "unused"
    planPagesResp := .ok "llama2_agent: page_1"
    subtasksResp := .error "unused"
    directResp := .error "unused"
    summaryResp := fun _ => .ok "SUM"
    agentResp := fun _ _ => .raised "boom"
    extractText := fun _ => ["hello"]
    ocrAvailable := false
    ocrText := fun _ _ => "" }

/-- A three-page document run with three agent calls, of which exactly the
one to `llama2_agent_2` raises a network error (`conn`); synthesis answers
`SUM`. -/
def cfgThreeCalls : OracleConfig :=
  { classifyResp := .error "unused"
    planPagesResp := .ok "llama2_agent: page_1,page_2\nllama2_agent_2: page_3"
    subtasksResp := .error "unused"
    directResp := .error "unused"
    summaryResp := fun _ => .ok "SUM"
    agentResp := fun ag key =>
      if ag = "llama2_agent_2" then .raised "conn"
      else .result ("R-" ++ key)
    extractText := fun _ => ["a", "b", "c"]
    ocrAvailable := false
    ocrText := fun _ _ => "" }

/-- Like `cfgThreeCalls`, except every agent call succeeds and the synthesis
oracle call itself raises (`summary boom`). -/
def cfgFailingSummary : OracleConfig :=
  { classifyResp := .error "unused"
    planPagesResp := .ok "llama2_agent: page_1,page_2\nllama2_agent_2: page_3"
    subtasksResp := .error "unused"
    directResp := .error "unused"
    summaryResp := fun _ => .error "summary boom"
    agentResp := fun _ key => .result ("R-" ++ key)
    extractText := fun _ => ["a", "b", "c"]
    ocrAvailable := false
    ocrText := fun _ _ => "" }

/-- A flat-text run classified as needing no split, answered directly with
`MD`. -/
def cfgDirect : OracleConfig :=
  { classifyResp := .ok "no"
    planPagesResp := .error "unused"
    subtasksResp := .error "unused"
    directResp := .ok "MD"
    summaryResp := fun _ => .error "unused"
    agentResp := fun _ _ => .noResult
    extractText := fun _ => []
    ocrAvailable := false
    ocrText := fun _ _ => "" }

/- ---------------- C1 ---------------- -/

/-- Counterexample for C1 as stated: in a one-page document run whose agent
call fails, the Dispatch Executor does record the error marker and
continue, but it stores the marker in the Memory Store under the unit's
display label `Process page_1`, not under the unit's identifier `page_1`:
after the run the agent's table is exactly
`[("Process page_1", errMarker "boom")]`, which has no `page_1` key.
-/
theorem C1_memory_key_counterexample :
    assocLookup
      ((dispatch cfgFailingAgent "ctx" "t" (some [1]) none initState).1.memory.get
        "ctx") "llama2_agent"
      = some (.table [("Process page_1", errMarker "boom")]) ∧
    assocLookup [("Process page_1", errMarker "boom")] "page_1" = none := by
  refine ⟨by decide, by decide⟩

/-- Claim C1 (amended): for every `(agent, unit)` pair whose agent call raises, the
Dispatch Executor records the distinctly prefixed error marker
`[❌ 调用失败] <reason>` as the pair's result instead of propagating, merges
it into the Memory Store for `(context_id, agent)` under the unit's label
`Process <unit-id>` (not the bare unit identifier), appends exactly one
trace record for the pair, and the dispatch loop continues with the
remaining pairs (and hence the run proceeds to summarize).
-/
theorem C1_failure_isolated_and_recorded (cfg : OracleConfig)
    (contextId : String) (st : SchedState) (ag key reason : String)
    (agMem : List (String × String)) (rest : List (String × String))
    (hfail : cfg.agentResp ag key = .raised reason)
    (hmem : agMemOf st.memory contextId ag = .ok agMem) :
    runPair cfg contextId st ag key
      = (⟨st.memory.update contextId
            [(ag, .table (assocSet agMem ("Process " ++ key)
               (errMarker reason)))],
          st.trace ++ [⟨ag, "Process " ++ key, errMarker reason⟩]⟩, none) ∧
    assocLookup
      (((runPair cfg contextId st ag key).1.memory).get contextId) ag
      = some (.table (assocSet agMem ("Process " ++ key)
          (errMarker reason))) ∧
    assocLookup (assocSet agMem ("Process " ++ key) (errMarker reason))
      ("Process " ++ key) = some (errMarker reason) ∧
    runPairs cfg contextId st ((ag, key) :: rest)
      = ((runPairs cfg contextId (runPair cfg contextId st ag key).1 rest).1,
         Event.assigned ag ("Process " ++ key) "Processing"
           :: (runPairs cfg contextId (runPair cfg contextId st ag key).1
                rest).2.1,
         (runPairs cfg contextId (runPair cfg contextId st ag key).1
           rest).2.2) := by
  have h1 : runPair cfg contextId st ag key
      = (⟨st.memory.update contextId
            [(ag, .table (assocSet agMem ("Process " ++ key)
               (errMarker reason)))],
          st.trace ++ [⟨ag, "Process " ++ key, errMarker reason⟩]⟩, none) := by
    have h0 := runPair_ok_of_agMem cfg contextId st ag key agMem hmem
    rw [hfail] at h0
    exact h0
  refine ⟨h1, ?_, assocLookup_assocSet_self .., ?_⟩
  · rw [h1]
    rw [show ((⟨st.memory.update contextId
        [(ag, MemVal.table (assocSet agMem ("Process " ++ key)
          (errMarker reason)))],
        st.trace ++ [⟨ag, "Process " ++ key, errMarker reason⟩]⟩ : SchedState),
        (none : Option Err)).1.memory
      = st.memory.update contextId
          [(ag, MemVal.table (assocSet agMem ("Process " ++ key)
            (errMarker reason)))] from rfl]
    rw [memGet_update_self]
    exact assocLookup_assocSet_self ..
  · rw [runPairs, h1]

/-- Witness for C1 (amended): the failing one-page run of `cfgFailingAgent`
instantiates the executor contract at
`(llama2_agent, page_1)` with reason `boom` on a fresh scheduler state.
-/
theorem C1_failure_isolated_and_recorded_witness :
    runPair cfgFailingAgent "ctx" initState "llama2_agent" "page_1"
      = (⟨initState.memory.update "ctx"
            [("llama2_agent", .table (assocSet [] "Process page_1"
               (errMarker "boom")))],
          initState.trace
            ++ [⟨"llama2_agent", "Process page_1", errMarker "boom"⟩]⟩,
         none) :=
  (C1_failure_isolated_and_recorded cfgFailingAgent "ctx" initState
    "llama2_agent" "page_1" "boom" [] [] rfl (by decide)).1

/- ---------------- C4 ---------------- -/

/-- Counterexample for C4 as stated: in a three-page document run whose agent
calls all succeed but whose synthesis oracle call raises, `dispatch`
propagates the exception (`summary boom`) instead of returning an
error-marker markdown — the run returns no final markdown at all.
-/
theorem C4_summary_failure_counterexample :
    (dispatch cfgFailingSummary "ctx" "t" (some [1]) none initState).2.2
      = .error "summary boom" := by decide

/-- Claim C4 (amended): if the synthesis oracle call fails, the failure propagates as
an exception out of the summarization step and hence out of the
orchestrator (no summary is stored, no event is pushed); only when the
synthesis call succeeds does the run store the stripped reply as the
`summary` memory entry, append the summary trace record, emit `done`, and
return the reply as the final markdown.
-/
theorem C4_summary_failure_propagates :
    (∀ (cfg : OracleConfig) (contextId : String) (st : SchedState) (e : Err),
      cfg.summaryResp (summaryPrompt st.memory contextId) = .error e →
      summarize cfg contextId st = (st, [], .error e)) ∧
    (∀ (cfg : OracleConfig) (contextId : String) (st : SchedState)
      (s : String),
      cfg.summaryResp (summaryPrompt st.memory contextId) = .ok s →
      summarize cfg contextId st
        = (⟨st.memory.update contextId [("summary", .str (pyStrip s))],
            st.trace ++ [⟨"scheduler", "自动总结", pyStrip s⟩]⟩,
           [.done (pyStrip s)],
           .ok ⟨pyStrip s,
             st.trace ++ [⟨"scheduler", "自动总结", pyStrip s⟩]⟩)) ∧
    (∀ (cfg : OracleConfig) (contextId : String) (evSub : Event)
      (plan : List (String × List String)) (st : SchedState) (e : Err),
      (runPairs cfg contextId st (pairsOf plan)).2.2 = none →
      cfg.summaryResp (summaryPrompt
        (runPairs cfg contextId st (pairsOf plan)).1.memory contextId)
        = .error e →
      runPlanAndSummarize cfg contextId evSub plan st
        = ((runPairs cfg contextId st (pairsOf plan)).1,
           evSub :: (runPairs cfg contextId st (pairsOf plan)).2.1,
           .error e)) := by
  refine ⟨fun cfg contextId st e h => summarize_error cfg contextId st e h,
    fun cfg contextId st s h => summarize_ok cfg contextId st s h,
    fun cfg contextId evSub plan st e hout hs => ?_⟩
  simp only [runPlanAndSummarize]
  simp only [hout]
  rw [summarize_error cfg contextId _ e hs]
  simp

/-- Witness for C4 (amended): the failing synthesis call of
`cfgFailingSummary` makes the summarization step return the propagated
exception with the state unchanged and no event pushed.
-/
theorem C4_summary_failure_propagates_witness :
    summarize cfgFailingSummary "ctx" initState
      = (initState, [], .error "summary boom") :=
  C4_summary_failure_propagates.1 cfgFailingSummary "ctx" initState
    "summary boom" rfl

end AgentV8

namespace AgentV8

/- ---------------- Progress-event ordering ---------------- -/

/-- The C6 event-sequence properties for one completed run: exactly one
`done` event, the `done` event last (carrying the final markdown), and a
`subtasks` event strictly before every `assign` event. -/
def eventOrderingProps (evs : List Event) (md : String) : Prop :=
  (evs.filter isDoneEv).length = 1 ∧
  evs.getLast? = some (.done md) ∧
  ∀ i : Fin evs.length, isAssignEv (evs.get i) = true →
    ∃ j : Fin evs.length, j.1 < i.1 ∧ isSubtasksEv (evs.get j) = true

theorem isDoneEv_of_assign (ev : Event) (h : isAssignEv ev = true) :
    isDoneEv ev = false := by
  cases ev with
  | subtasksListed s => simp [isAssignEv] at h
  | assigned a b c => rfl
  | done m => simp [isAssignEv] at h

theorem eventProps_direct (md : String) :
    eventOrderingProps [Event.done md] md := by
  refine ⟨rfl, rfl, ?_⟩
  intro i hi
  exfalso
  have h1 : i.1 < 1 := i.2
  have h0 : i.1 = 0 := by omega
  have hgi : ([Event.done md]).get i = Event.done md := by
    have hie : i = ⟨0, by simp⟩ := Fin.ext h0
    rw [hie]
    rfl
  rw [hgi] at hi
  simp [isAssignEv] at hi

theorem eventProps_loop (subs : List String) (mid : List Event) (md : String)
    (hmid : ∀ ev ∈ mid, isAssignEv ev = true) :
    eventOrderingProps (Event.subtasksListed subs :: (mid ++ [Event.done md]))
      md := by
  refine ⟨?_, ?_, ?_⟩
  · have hfmid : mid.filter isDoneEv = [] := by
      rw [List.filter_eq_nil_iff]
      intro ev hev
      rw [isDoneEv_of_assign ev (hmid ev hev)]
      simp
    simp [List.filter_cons, List.filter_append, hfmid, isDoneEv]
  · exact List.getLast?_concat (Event.subtasksListed subs :: mid)
  · intro i hi
    have hpos : 0 < i.1 := by
      rcases Nat.eq_zero_or_pos i.1 with h0 | h0
      · exfalso
        have hgi : (Event.subtasksListed subs
            :: (mid ++ [Event.done md])).get i
            = Event.subtasksListed subs := by
          have hie : i = ⟨0, by simp⟩ := Fin.ext h0
          rw [hie]
          rfl
        rw [hgi] at hi
        simp [isAssignEv] at hi
      · exact h0
    exact ⟨⟨0, by simp⟩, hpos, rfl⟩

theorem answerDirect_ok_events (cfg : OracleConfig) (st st' : SchedState)
    (evs : List Event) (r : DispatchResult)
    (h : answerDirect cfg st = (st', evs, .ok r)) :
    evs = [Event.done r.markdown] := by
  unfold answerDirect at h
  cases hd : cfg.directResp with
  | error e =>
    rw [hd] at h
    simp at h
  | ok s =>
    rw [hd] at h
    simp only [Prod.mk.injEq] at h
    obtain ⟨h1, h2, h3⟩ := h
    simp only [Except.ok.injEq] at h3
    rw [← h2, ← h3]

theorem runPlanAndSummarize_ok_events (cfg : OracleConfig)
    (contextId : String) (subs : List String)
    (plan : List (String × List String)) (st st' : SchedState)
    (evs : List Event) (r : DispatchResult)
    (h : runPlanAndSummarize cfg contextId (Event.subtasksListed subs) plan st
      = (st', evs, .ok r)) :
    ∃ mid, evs = Event.subtasksListed subs :: (mid ++ [Event.done r.markdown])
      ∧ ∀ ev ∈ mid, isAssignEv ev = true := by
  obtain ⟨s, hout, hs, hst, hevs, hr⟩ :=
    runPlanAndSummarize_ok cfg contextId _ plan st st' evs r h
  refine ⟨(runPairs cfg contextId st (pairsOf plan)).2.1, ?_,
    runPairs_events_assign cfg contextId (pairsOf plan) st⟩
  rw [hevs, hr]
  rfl

theorem textRun_ok_event_props (cfg : OracleConfig)
    (contextId task : String) (st st' : SchedState) (evs : List Event)
    (r : DispatchResult)
    (h : textRun cfg contextId task st = (st', evs, .ok r)) :
    eventOrderingProps evs r.markdown := by
  simp only [textRun] at h
  cases h1 : needSplit cfg with
  | error e =>
    simp only [h1] at h
    simp at h
  | ok b =>
    simp only [h1] at h
    cases b with
    | false =>
      rw [answerDirect_ok_events cfg st st' evs r h]
      exact eventProps_direct r.markdown
    | true =>
      cases h2 : planSubtasksJson cfg with
      | error e =>
        simp only [h2] at h
        simp at h
      | ok plan =>
        simp only [h2] at h
        by_cases hpl : plan.isEmpty
        · simp only [hpl, if_true] at h
          rw [answerDirect_ok_events cfg st st' evs r h]
          exact eventProps_direct r.markdown
        · simp only [hpl, if_false] at h
          obtain ⟨mid, hevs, hmid⟩ :=
            runPlanAndSummarize_ok_events cfg contextId _ plan st st' evs r h
          rw [hevs]
          exact eventProps_loop _ mid r.markdown hmid

theorem pdfRun_ok_event_props (cfg : OracleConfig)
    (contextId task : String) (data : List Nat) (st st' : SchedState)
    (evs : List Event) (r : DispatchResult)
    (h : pdfRun cfg contextId task data st = (st', evs, .ok r)) :
    eventOrderingProps evs r.markdown := by
  simp only [pdfRun] at h
  cases hp : pdfFinalPlan cfg ((pdfPages cfg data).map Prod.fst) with
  | error e =>
    simp only [hp] at h
    simp at h
  | ok plan =>
    simp only [hp] at h
    obtain ⟨mid, hevs, hmid⟩ :=
      runPlanAndSummarize_ok_events cfg contextId _ plan st st' evs r h
    rw [hevs]
    exact eventProps_loop _ mid r.markdown hmid

/-- Counterexample for C6 as stated: a document run whose synthesis oracle call
raises emits `subtasks` and `assign` events but no `run_done` event at all,
so `run_done` is not emitted exactly once per dispatch call.
-/
theorem C6_no_done_counterexample :
    ((dispatch cfgFailingSummary "ctx" "t" (some [1]) none initState).2.1.filter
      isDoneEv) = [] ∧
    (dispatch cfgFailingSummary "ctx" "t" (some [1]) none initState).2.1
      ≠ [] := by
  refine ⟨by decide, by decide⟩

/-- Claim C6 (amended): for every dispatch call that returns normally, the emitted
progress events contain exactly one `done` event, the `done` event (with
the returned markdown) comes after every other event, and a `subtasks`
event strictly precedes every `assign` event.  A dispatch call aborted by a
propagated exception (for example a failed synthesis oracle call) emits no
`done` event.
-/
theorem C6_event_ordering (cfg : OracleConfig) (contextId task : String)
    (pdfBytes fileBytes : Option (List Nat)) (st st' : SchedState)
    (evs : List Event) (r : DispatchResult)
    (hdisp : dispatch cfg contextId task pdfBytes fileBytes st
      = (st', evs, .ok r)) :
    eventOrderingProps evs r.markdown := by
  unfold dispatch at hdisp
  cases hb : pyOr pdfBytes fileBytes with
  | none =>
    simp only [hb] at hdisp
    exact textRun_ok_event_props cfg contextId task st st' evs r hdisp
  | some data =>
    simp only [hb] at hdisp
    by_cases hd : data.isEmpty
    · simp only [hd, if_true] at hdisp
      exact textRun_ok_event_props cfg contextId task st st' evs r hdisp
    · simp only [hd, if_false] at hdisp
      exact pdfRun_ok_event_props cfg contextId task data st st' evs r hdisp

/-- Witness for C6 (amended): the direct-answer run of `cfgDirect` returns
markdown `MD` with the single event list `[done "MD"]`, which satisfies the
ordering properties.
-/
theorem C6_event_ordering_witness :
    eventOrderingProps [Event.done "MD"] "MD" :=
  C6_event_ordering cfgDirect "ctx" "t" none none initState initState
    [Event.done "MD"] ⟨"MD", []⟩ (by decide)

end AgentV8

namespace AgentV8

/- ---------------- C5 ---------------- -/

/-- Counterexample for C5 as stated: in the three-call document run of
`cfgThreeCalls` (three `(agent, unit)` pairs attempted, one raising a
network error), the returned trace has 4 entries, not 3: `dispatch`
appends a final summary record beyond the per-pair records.
-/
theorem C5_trace_count_counterexample :
    (match (dispatch cfgThreeCalls "ctx" "t" (some [1]) none initState).2.2 with
     | .ok r => r.trace.length
     | .error _ => 0) = 4 ∧
    (pdfFinalPlan cfgThreeCalls
        ((pdfPages cfgThreeCalls [1]).map Prod.fst)).map
        (fun pl => (pairsOf pl).length)
      = .ok 3 := by
  refine ⟨by decide, by decide⟩

/-- Claim C5 (amended): for every document dispatch run that completes (returns
normally), the returned trace of a scheduler holds the prior instance
trace plus one record per `(agent, unit)` pair actually attempted plus one
final summary record — so on a fresh instance the count is
`pairs attempted + 1`, not `pairs attempted`; agents with empty unit lists
still contribute nothing.  In the scenario of three dispatched calls with
exactly one network error, the final trace has 4 entries of which exactly
one carries the error marker, and the run still summarizes and completes.
-/
theorem C5_trace_counts :
    (∀ (cfg : OracleConfig) (contextId task : String) (data : List Nat)
      (fileBytes : Option (List Nat)) (st st' : SchedState)
      (evs : List Event) (r : DispatchResult)
      (plan : List (String × List String)),
      data.isEmpty = false →
      pdfFinalPlan cfg ((pdfPages cfg data).map Prod.fst) = .ok plan →
      dispatch cfg contextId task (some data) fileBytes st
        = (st', evs, .ok r) →
      r.trace.length = st.trace.length + (pairsOf plan).length + 1) ∧
    (∃ r, (dispatch cfgThreeCalls "ctx" "t" (some [1]) none initState).2.2
        = .ok r ∧
      r.trace.length = 4 ∧
      (r.trace.filter traceHasMarker).length = 1) := by
  constructor
  · intro cfg contextId task data fileBytes st st' evs r plan hdata hplan
      hdisp
    have hbr : dispatch cfg contextId task (some data) fileBytes st
        = pdfRun cfg contextId task data st := by
      simp [dispatch, pyOr, truthyBytes, hdata]
    rw [hbr] at hdisp
    simp only [pdfRun] at hdisp
    simp only [hplan] at hdisp
    obtain ⟨s, hout, hs, hst, hevs, hr⟩ :=
      runPlanAndSummarize_ok cfg contextId _ plan st st' evs r hdisp
    subst hr
    have hlen := runPairs_ok_trace_length cfg contextId (pairsOf plan) st hout
    simp only [List.length_append, hlen]
    simp
  · refine ⟨⟨"SUM",
      [⟨"llama2_agent", "Process page_1", "R-page_1"⟩,
       ⟨"llama2_agent", "Process page_2", "R-page_2"⟩,
       ⟨"llama2_agent_2", "Process page_3", errMarker "conn"⟩,
       ⟨"scheduler", "自动总结", "SUM"⟩]⟩, by decide, by decide, by decide⟩

/-- Witness for C5 (amended): applying the count law to the concrete
`cfgThreeCalls` run (three attempted pairs, fresh instance) gives a
returned trace of length `0 + 3 + 1`.
-/
theorem C5_trace_counts_witness :
    ({ markdown := "SUM",
       trace := [⟨"llama2_agent", "Process page_1", "R-page_1"⟩,
                 ⟨"llama2_agent", "Process page_2", "R-page_2"⟩,
                 ⟨"llama2_agent_2", "Process page_3", errMarker "conn"⟩,
                 ⟨"scheduler", "自动总结", "SUM"⟩] } : DispatchResult).trace.length
      = initState.trace.length
        + (pairsOf [("llama2_agent", ["page_1", "page_2"]),
                    ("llama2_agent_2", ["page_3"])]).length + 1 :=
  C5_trace_counts.1 cfgThreeCalls "ctx" "t" [1] none initState
    ⟨⟨[("ctx",
        [("llama2_agent",
          .table [("Process page_1", "R-page_1"),
                  ("Process page_2", "R-page_2")]),
         ("llama2_agent_2", .table [("Process page_3", errMarker "conn")]),
         ("summary", .str "SUM")])]⟩,
      [⟨"llama2_agent", "Process page_1", "R-page_1"⟩,
       ⟨"llama2_agent", "Process page_2", "R-page_2"⟩,
       ⟨"llama2_agent_2", "Process page_3", errMarker "conn"⟩,
       ⟨"scheduler", "自动总结", "SUM"⟩]⟩
    [Event.subtasksListed ["Process page_1", "Process page_2",
       "Process page_3"],
     Event.assigned "llama2_agent" "Process page_1" "Processing",
     Event.assigned "llama2_agent" "Process page_2" "Processing",
     Event.assigned "llama2_agent_2" "Process page_3" "Processing",
     Event.done "SUM"]
    ⟨"SUM",
     [⟨"llama2_agent", "Process page_1", "R-page_1"⟩,
      ⟨"llama2_agent", "Process page_2", "R-page_2"⟩,
      ⟨"llama2_agent_2", "Process page_3", errMarker "conn"⟩,
      ⟨"scheduler", "自动总结", "SUM"⟩]⟩
    [("llama2_agent", ["page_1", "page_2"]), ("llama2_agent_2", ["page_3"])]
    rfl (by decide) (by decide)

theorem pdfPages_congr (cfg1 cfg2 : OracleConfig)
    (h7 : cfg1.extractText = cfg2.extractText)
    (h8 : cfg1.ocrAvailable = cfg2.ocrAvailable)
    (h9 : cfg1.ocrText = cfg2.ocrText) (data : List Nat) :
    pdfPages cfg1 data = pdfPages cfg2 data := by
  unfold pdfPages
  rw [h7, h8, h9]

theorem planPages_congr (cfg1 cfg2 : OracleConfig)
    (h2 : cfg1.planPagesResp = cfg2.planPagesResp) :
    planPages cfg1 = planPages cfg2 := by
  unfold planPages
  rw [h2]

theorem pdfFinalPlan_congr (cfg1 cfg2 : OracleConfig)
    (h2 : cfg1.planPagesResp = cfg2.planPagesResp) (pageIds : List String) :
    pdfFinalPlan cfg1 pageIds = pdfFinalPlan cfg2 pageIds := by
  unfold pdfFinalPlan
  rw [planPages_congr cfg1 cfg2 h2]

theorem runPair_congr (cfg1 cfg2 : OracleConfig)
    (h6 : cfg1.agentResp = cfg2.agentResp) (contextId : String)
    (st : SchedState) (ag key : String) :
    runPair cfg1 contextId st ag key = runPair cfg2 contextId st ag key := by
  unfold runPair
  rw [h6]

theorem runPairs_congr (cfg1 cfg2 : OracleConfig)
    (h6 : cfg1.agentResp = cfg2.agentResp) (contextId : String)
    (pairs : List (String × String)) :
    ∀ st, runPairs cfg1 contextId st pairs
      = runPairs cfg2 contextId st pairs := by
  induction pairs with
  | nil => intro st; rfl
  | cons hd tl ih =>
    obtain ⟨ag, key⟩ := hd
    intro st
    rw [runPairs, runPairs, runPair_congr cfg1 cfg2 h6]
    cases runPair cfg2 contextId st ag key with
    | mk st1 errOpt =>
      cases errOpt with
      | some e => rfl
      | none =>
        simp only [ih]

theorem summarize_congr (cfg1 cfg2 : OracleConfig)
    (h5 : cfg1.summaryResp = cfg2.summaryResp) (contextId : String)
    (st : SchedState) :
    summarize cfg1 contextId st = summarize cfg2 contextId st := by
  unfold summarize
  rw [h5]

theorem runPlanAndSummarize_congr (cfg1 cfg2 : OracleConfig)
    (h5 : cfg1.summaryResp = cfg2.summaryResp)
    (h6 : cfg1.agentResp = cfg2.agentResp) (contextId : String)
    (evSub : Event) (plan : List (String × List String)) (st : SchedState) :
    runPlanAndSummarize cfg1 contextId evSub plan st
      = runPlanAndSummarize cfg2 contextId evSub plan st := by
  simp only [runPlanAndSummarize]
  rw [runPairs_congr cfg1 cfg2 h6 contextId (pairsOf plan) st]
  cases (runPairs cfg2 contextId st (pairsOf plan)).2.2 with
  | some e => rfl
  | none =>
    rw [summarize_congr cfg1 cfg2 h5]

theorem pdfRun_congr (cfg1 cfg2 : OracleConfig)
    (h2 : cfg1.planPagesResp = cfg2.planPagesResp)
    (h5 : cfg1.summaryResp = cfg2.summaryResp)
    (h6 : cfg1.agentResp = cfg2.agentResp)
    (h7 : cfg1.extractText = cfg2.extractText)
    (h8 : cfg1.ocrAvailable = cfg2.ocrAvailable)
    (h9 : cfg1.ocrText = cfg2.ocrText) (contextId task : String)
    (data : List Nat) (st : SchedState) :
    pdfRun cfg1 contextId task data st = pdfRun cfg2 contextId task data st := by
  simp only [pdfRun]
  rw [pdfPages_congr cfg1 cfg2 h7 h8 h9, pdfFinalPlan_congr cfg1 cfg2 h2]
  cases pdfFinalPlan cfg2 ((pdfPages cfg2 data).map Prod.fst) with
  | error e => rfl
  | ok plan =>
    exact runPlanAndSummarize_congr cfg1 cfg2 h5 h6 contextId _ plan st

/- ---------------- C9 ---------------- -/

/-- Claim C9: when document bytes are present (truthy), `dispatch` never consults the
classification oracle — the run's outcome is identical for any two
classification-oracle behaviours — and it always proceeds through the
document planning path (`pdfRun`), never through classification or the
direct-answer shortcut.
-/
theorem C9_document_skips_classification (cfg : OracleConfig)
    (contextId task : String) (pdfBytes fileBytes : Option (List Nat))
    (data : List Nat) (st : SchedState) (c1 c2 : Except Err String)
    (hor : pyOr pdfBytes fileBytes = some data)
    (hdata : data.isEmpty = false) :
    dispatch { cfg with classifyResp := c1 } contextId task pdfBytes
        fileBytes st
      = dispatch { cfg with classifyResp := c2 } contextId task pdfBytes
          fileBytes st ∧
    dispatch cfg contextId task pdfBytes fileBytes st
      = pdfRun cfg contextId task data st := by
  have hbr : ∀ c : Except Err String,
      dispatch { cfg with classifyResp := c } contextId task pdfBytes
          fileBytes st
        = pdfRun { cfg with classifyResp := c } contextId task data st := by
    intro c
    simp [dispatch, hor, hdata]
  have hindep : ∀ c : Except Err String,
      pdfRun { cfg with classifyResp := c } contextId task data st
        = pdfRun cfg contextId task data st := fun c =>
    pdfRun_congr { cfg with classifyResp := c } cfg rfl rfl rfl rfl rfl rfl
      contextId task data st
  refine ⟨?_, by simp [dispatch, hor, hdata]⟩
  rw [hbr c1, hbr c2, hindep c1, hindep c2]

/-- Witness for C9: for the concrete one-byte document of `cfgThreeCalls`, the
run is unchanged between a classifier that answers `yes` and one that
raises, and equals the document-branch run.
-/
theorem C9_document_skips_classification_witness :
    dispatch { cfgThreeCalls with classifyResp := .ok "yes" } "ctx" "t"
        (some [1]) none initState
      = dispatch { cfgThreeCalls with classifyResp := .error "net" } "ctx"
          "t" (some [1]) none initState ∧
    dispatch cfgThreeCalls "ctx" "t" (some [1]) none initState
      = pdfRun cfgThreeCalls "ctx" "t" [1] initState :=
  C9_document_skips_classification cfgThreeCalls "ctx" "t" (some [1]) none
    [1] initState (.ok "yes") (.error "net") (by decide) rfl

/- ---------------- C10 witness ---------------- -/

/-- Witness for C10: the direct-answer run of `cfgDirect` on a fresh instance
returns `MD` whose trace equals the (unchanged) instance trace, obtained by
applying `C10_trace_only_grows` at the concrete result.
-/
theorem C10_trace_only_grows_witness :
    (dispatch cfgDirect "ctx" "t" none none initState).2.2
      = .ok ⟨"MD", []⟩ ∧
    (⟨"MD", []⟩ : DispatchResult).trace
      = (dispatch cfgDirect "ctx" "t" none none initState).1.trace :=
  ⟨by decide,
   (C10_trace_only_grows cfgDirect "ctx" "t" none none initState).2
     ⟨"MD", []⟩ (by decide)⟩

end AgentV8
